import Mathlib

/-!
Verification of the client-side encryption engine of this repository
(src/src/lib/encryption.ts and its dashboard callers).

Namespace Codec models the binary-to-text codec concretely:
arrayBufferToBase64 is byte-by-byte String.fromCharCode composed with
btoa, and base64ToArrayBuffer is atob followed by charCodeAt, where
atob follows the WHATWG forgiving-base64 decode (strip ASCII
whitespace; when the length is a multiple of 4, drop up to two
trailing padding characters; reject a remaining length of 1 mod 4 and
any character outside the alphabet; leftover bits of a final partial
group are discarded).

Namespace Engine models the WebCrypto provider symbolically (ideal
AEAD and RSA-OAEP: a ciphertext is the term of the key material, IV
and plaintext that produced it, and decryption succeeds exactly on a
matching key and IV, which is the authenticated-encryption contract
the code relies on) and translates each function of encryption.ts over
that provider.  Random draws (salts, IVs, fresh key material) are
passed as explicit arguments.
-/

namespace Codec

/-- The 64 characters of the standard base64 alphabet, in order, as used
by btoa and atob. -/
def b64Chars : List Char :=
  "ABCDEFGHIJKLMNOPQRSTUVWXYZabcdefghijklmnopqrstuvwxyz0123456789+/".toList

/-- Base64 character of a six-bit value. -/
def sextetChar (n : Nat) : Char := b64Chars.getD n 'A'

/-- Six-bit value of a base64 character; none when the character is not in
the alphabet. -/
def charSextet (c : Char) : Option Nat :=
  let i := b64Chars.indexOf c
  if i < b64Chars.length then some i else none

/-- ASCII whitespace, the characters the forgiving-base64 decode of atob
removes before decoding. -/
def isAsciiWs (c : Char) : Bool :=
  c = ' ' || c = Char.ofNat 9 || c = Char.ofNat 10 || c = Char.ofNat 12 || c = Char.ofNat 13

/-- btoa on a byte sequence, three input bytes per four output characters;
a final group of one or two bytes is padded with one or two padding
characters.  This is btoa applied to the character-per-byte binary string
that arrayBufferToBase64 builds with String.fromCharCode. -/
def encodeChunks : List Nat → List Char
  | [] => []
  | [b0] => [sextetChar (b0 / 4), sextetChar (b0 % 4 * 16), '=', '=']
  | [b0, b1] => [sextetChar (b0 / 4), sextetChar (b0 % 4 * 16 + b1 / 16),
      sextetChar (b1 % 16 * 4), '=']
  | b0 :: b1 :: b2 :: rest =>
      sextetChar (b0 / 4) :: sextetChar (b0 % 4 * 16 + b1 / 16) ::
      sextetChar (b1 % 16 * 4 + b2 / 64) :: sextetChar (b2 % 64) :: encodeChunks rest

/-- arrayBufferToBase64 from src/src/lib/encryption.ts, on the byte list of
the input buffer. -/
def arrayBufferToBase64 (bytes : List Nat) : List Char := encodeChunks bytes

/-- Decode a group of two base64 characters into one byte (four leftover
bits are discarded, as in forgiving-base64). -/
def decode2 (c0 c1 : Char) : Option (List Nat) :=
  match charSextet c0, charSextet c1 with
  | some s0, some s1 => some [s0 * 4 + s1 / 16]
  | _, _ => none

/-- Decode a group of three base64 characters into two bytes (two leftover
bits are discarded). -/
def decode3 (c0 c1 c2 : Char) : Option (List Nat) :=
  match charSextet c0, charSextet c1, charSextet c2 with
  | some s0, some s1, some s2 => some [s0 * 4 + s1 / 16, s1 % 16 * 16 + s2 / 4]
  | _, _, _ => none

/-- Decode a full group of four base64 characters into three bytes. -/
def decode4 (c0 c1 c2 c3 : Char) : Option (List Nat) :=
  match charSextet c0, charSextet c1, charSextet c2, charSextet c3 with
  | some s0, some s1, some s2, some s3 =>
      some [s0 * 4 + s1 / 16, s1 % 16 * 16 + s2 / 4, s2 % 4 * 64 + s3]
  | _, _, _, _ => none

/-- The body of the forgiving-base64 decode of atob, after whitespace
removal: full groups of four characters, then a final group of two or
three characters, optionally completed to four with padding characters;
padding anywhere else, a remaining length of 1 mod 4, or a character
outside the alphabet is rejected. -/
def decodeChunks : List Char → Option (List Nat)
  | [] => some []
  | [_] => none
  | [c0, c1] => decode2 c0 c1
  | [c0, c1, c2] => decode3 c0 c1 c2
  | [c0, c1, c2, c3] =>
      if c3 = '=' then (if c2 = '=' then decode2 c0 c1 else decode3 c0 c1 c2)
      else decode4 c0 c1 c2 c3
  | c0 :: c1 :: c2 :: c3 :: c4 :: rest =>
      match decode4 c0 c1 c2 c3, decodeChunks (c4 :: rest) with
      | some bs, some tail => some (bs ++ tail)
      | _, _ => none

/-- base64ToArrayBuffer from src/src/lib/encryption.ts: atob
(forgiving-base64: ASCII whitespace is removed first), then one byte per
character of the resulting binary string; none models the
InvalidCharacterError thrown by atob on malformed input, the codec's
MalformedEncoding failure. -/
def base64ToArrayBuffer (s : List Char) : Option (List Nat) :=
  decodeChunks (s.filter (fun c => !isAsciiWs c))

/-- Drop one leading padding character, if present. -/
def dropEq1 (l : List Char) : List Char :=
  match l with
  | a :: as => if a = '=' then as else l
  | [] => []

/-- Modelled from the spec (4.1, failure clause): the padding-stripping
step of forgiving-base64, removing up to two trailing padding characters
when the length is a multiple of four. -/
def stripPadding (t : List Char) : List Char :=
  if t.length % 4 = 0 then (dropEq1 (dropEq1 t.reverse)).reverse else t

/-- Modelled from the spec (4.1, failure clause): a whitespace-free
character sequence is well formed when, after stripping padding, no
character lies outside the alphabet and the length is not 1 mod 4. -/
def specWellFormedCore (t : List Char) : Bool :=
  ((stripPadding t).length % 4 != 1) && (stripPadding t).all (fun c => (charSextet c).isSome)

/-- Modelled from the spec (4.1, failure clause): well-formed codec input,
i.e. input on which decode does not fail with MalformedEncoding. -/
def specWellFormed (s : List Char) : Bool :=
  specWellFormedCore (s.filter (fun c => !isAsciiWs c))

theorem charSextet_sextetChar : ∀ s : Nat, s < 64 → charSextet (sextetChar s) = some s := by
  decide

theorem sextetChar_ne_pad : ∀ s : Nat, s < 64 → ¬(sextetChar s = '=') := by
  decide

theorem sextetChar_not_ws : ∀ s : Nat, s < 64 → isAsciiWs (sextetChar s) = false := by
  decide

theorem pad_not_ws : isAsciiWs '=' = false := by decide

/-- Chunk induction along the three-byte groups of encodeChunks. -/
theorem chunk3_induction {motive : List Nat → Prop} (h0 : motive [])
    (h1 : ∀ b0, motive [b0]) (h2 : ∀ b0 b1, motive [b0, b1])
    (h3 : ∀ b0 b1 b2 rest, motive rest → motive (b0 :: b1 :: b2 :: rest)) :
    ∀ l, motive l
  | [] => h0
  | [b0] => h1 b0
  | [b0, b1] => h2 b0 b1
  | b0 :: b1 :: b2 :: rest =>
      h3 b0 b1 b2 rest (chunk3_induction h0 h1 h2 h3 rest)

theorem encodeChunks_ne_nil (b : List Nat) (hb : b ≠ []) : encodeChunks b ≠ [] := by
  rcases b with _ | ⟨b0, _ | ⟨b1, _ | ⟨b2, rest⟩⟩⟩ <;> simp [encodeChunks] at hb ⊢

theorem filter_ws_encodeChunks (b : List Nat) (hb : ∀ x ∈ b, x < 256) :
    (encodeChunks b).filter (fun c => !isAsciiWs c) = encodeChunks b := by
  induction b using chunk3_induction with
  | h0 => simp [encodeChunks]
  | h1 b0 =>
      have h0 : b0 < 256 := hb b0 (by simp)
      simp [encodeChunks, List.filter,
        sextetChar_not_ws (b0 / 4) (by omega),
        sextetChar_not_ws (b0 % 4 * 16) (by omega), pad_not_ws]
  | h2 b0 b1 =>
      have h0 : b0 < 256 := hb b0 (by simp)
      have h1 : b1 < 256 := hb b1 (by simp)
      simp [encodeChunks, List.filter,
        sextetChar_not_ws (b0 / 4) (by omega),
        sextetChar_not_ws (b0 % 4 * 16 + b1 / 16) (by omega),
        sextetChar_not_ws (b1 % 16 * 4) (by omega), pad_not_ws]
  | h3 b0 b1 b2 rest ih =>
      have h0 : b0 < 256 := hb b0 (by simp)
      have h1 : b1 < 256 := hb b1 (by simp)
      have h2 : b2 < 256 := hb b2 (by simp)
      have ih' := ih (fun x hx => hb x (by simp [hx]))
      simp [encodeChunks, List.filter,
        sextetChar_not_ws (b0 / 4) (by omega),
        sextetChar_not_ws (b0 % 4 * 16 + b1 / 16) (by omega),
        sextetChar_not_ws (b1 % 16 * 4 + b2 / 64) (by omega),
        sextetChar_not_ws (b2 % 64) (by omega)] at ih' ⊢
      exact ih'

theorem decodeChunks_encodeChunks (b : List Nat) (hb : ∀ x ∈ b, x < 256) :
    decodeChunks (encodeChunks b) = some b := by
  induction b using chunk3_induction with
  | h0 => rfl
  | h1 b0 =>
      have h0 : b0 < 256 := hb b0 (by simp)
      simp only [encodeChunks, decodeChunks, if_pos rfl, decode2,
        charSextet_sextetChar (b0 / 4) (by omega),
        charSextet_sextetChar (b0 % 4 * 16) (by omega)]
      have e : b0 / 4 * 4 + b0 % 4 * 16 / 16 = b0 := by omega
      rw [e]
      simp
  | h2 b0 b1 =>
      have h0 : b0 < 256 := hb b0 (by simp)
      have h1 : b1 < 256 := hb b1 (by simp)
      simp only [encodeChunks, decodeChunks, if_pos rfl,
        if_neg (sextetChar_ne_pad (b1 % 16 * 4) (by omega)), decode3,
        charSextet_sextetChar (b0 / 4) (by omega),
        charSextet_sextetChar (b0 % 4 * 16 + b1 / 16) (by omega),
        charSextet_sextetChar (b1 % 16 * 4) (by omega)]
      have e0 : b0 / 4 * 4 + (b0 % 4 * 16 + b1 / 16) / 16 = b0 := by omega
      have e1 : (b0 % 4 * 16 + b1 / 16) % 16 * 16 + b1 % 16 * 4 / 4 = b1 := by omega
      rw [e0, e1]
      simp
  | h3 b0 b1 b2 rest ih =>
      have h0 : b0 < 256 := hb b0 (by simp)
      have h1 : b1 < 256 := hb b1 (by simp)
      have h2 : b2 < 256 := hb b2 (by simp)
      have ih' := ih (fun x hx => hb x (by simp [hx]))
      have e0 : b0 / 4 * 4 + (b0 % 4 * 16 + b1 / 16) / 16 = b0 := by omega
      have e1 : (b0 % 4 * 16 + b1 / 16) % 16 * 16 + (b1 % 16 * 4 + b2 / 64) / 4 = b1 := by
        omega
      have e2 : (b1 % 16 * 4 + b2 / 64) % 4 * 64 + b2 % 64 = b2 := by omega
      cases rest with
      | nil =>
        simp only [encodeChunks, decodeChunks,
          if_neg (sextetChar_ne_pad (b2 % 64) (by omega)), decode4,
          charSextet_sextetChar (b0 / 4) (by omega),
          charSextet_sextetChar (b0 % 4 * 16 + b1 / 16) (by omega),
          charSextet_sextetChar (b1 % 16 * 4 + b2 / 64) (by omega),
          charSextet_sextetChar (b2 % 64) (by omega)]
        simp [e0, e1, e2]
      | cons r rs =>
        obtain ⟨y, ys, hy⟩ : ∃ y ys, encodeChunks (r :: rs) = y :: ys := by
          rcases henc : encodeChunks (r :: rs) with _ | ⟨y, ys⟩
          · exact absurd henc (encodeChunks_ne_nil _ (by simp))
          · exact ⟨y, ys, rfl⟩
        simp only [encodeChunks, hy, decodeChunks, decode4,
          charSextet_sextetChar (b0 / 4) (by omega),
          charSextet_sextetChar (b0 % 4 * 16 + b1 / 16) (by omega),
          charSextet_sextetChar (b1 % 16 * 4 + b2 / 64) (by omega),
          charSextet_sextetChar (b2 % 64) (by omega)]
        rw [← hy, ih']
        simp [e0, e1, e2]

/-- Chunk induction along the four-character groups of decodeChunks. -/
theorem chunk4_induction {motive : List Char → Prop} (h0 : motive [])
    (h1 : ∀ c0, motive [c0]) (h2 : ∀ c0 c1, motive [c0, c1])
    (h3 : ∀ c0 c1 c2, motive [c0, c1, c2]) (h4 : ∀ c0 c1 c2 c3, motive [c0, c1, c2, c3])
    (h5 : ∀ c0 c1 c2 c3 c4 rest, motive (c4 :: rest) →
      motive (c0 :: c1 :: c2 :: c3 :: c4 :: rest)) :
    ∀ l, motive l
  | [] => h0
  | [c0] => h1 c0
  | [c0, c1] => h2 c0 c1
  | [c0, c1, c2] => h3 c0 c1 c2
  | [c0, c1, c2, c3] => h4 c0 c1 c2 c3
  | c0 :: c1 :: c2 :: c3 :: c4 :: rest =>
      h5 c0 c1 c2 c3 c4 rest (chunk4_induction h0 h1 h2 h3 h4 h5 (c4 :: rest))

theorem isSome_decode2 (c0 c1 : Char) :
    (decode2 c0 c1).isSome = ((charSextet c0).isSome && (charSextet c1).isSome) := by
  cases h0 : charSextet c0 <;> cases h1 : charSextet c1 <;> simp [decode2, h0, h1]

theorem isSome_decode3 (c0 c1 c2 : Char) :
    (decode3 c0 c1 c2).isSome =
      ((charSextet c0).isSome && (charSextet c1).isSome && (charSextet c2).isSome) := by
  cases h0 : charSextet c0 <;> cases h1 : charSextet c1 <;> cases h2 : charSextet c2 <;>
    simp [decode3, h0, h1, h2]

theorem isSome_decode4 (c0 c1 c2 c3 : Char) :
    (decode4 c0 c1 c2 c3).isSome =
      ((charSextet c0).isSome && (charSextet c1).isSome &&
       (charSextet c2).isSome && (charSextet c3).isSome) := by
  cases h0 : charSextet c0 <;> cases h1 : charSextet c1 <;> cases h2 : charSextet c2 <;>
    cases h3 : charSextet c3 <;> simp [decode4, h0, h1, h2, h3]

theorem dropEq1_append (x : Char) (xs w : List Char) :
    dropEq1 (x :: xs ++ w) = dropEq1 (x :: xs) ++ w := by
  by_cases h : x = '=' <;> simp [dropEq1, h]

theorem dropEq2_append (x y : Char) (zs w : List Char) :
    dropEq1 (dropEq1 ((x :: y :: zs) ++ w)) = dropEq1 (dropEq1 (x :: y :: zs)) ++ w := by
  rw [show (x :: y :: zs) ++ w = x :: (y :: zs) ++ w from rfl, dropEq1_append x (y :: zs) w]
  by_cases hx : x = '='
  · rw [show dropEq1 (x :: y :: zs) = y :: zs from by simp [dropEq1, hx]]
    exact dropEq1_append y zs w
  · rw [show dropEq1 (x :: y :: zs) = x :: y :: zs from by simp [dropEq1, hx]]
    exact dropEq1_append x (y :: zs) w

theorem specWellFormedCore_cons4 (c0 c1 c2 c3 : Char) (v : List Char) (hv : v ≠ []) :
    specWellFormedCore (c0 :: c1 :: c2 :: c3 :: v) =
      (((charSextet c0).isSome && (charSextet c1).isSome &&
        (charSextet c2).isSome && (charSextet c3).isSome) && specWellFormedCore v) := by
  have hm : (v.length + 1 + 1 + 1 + 1) % 4 = v.length % 4 := by omega
  by_cases hlen : v.length % 4 = 0
  · have hpos : 0 < v.length := List.length_pos.mpr hv
    have h2le : 2 ≤ v.length := by omega
    obtain ⟨x, t, hxt⟩ : ∃ x t, v.reverse = x :: t := by
      rcases hr : v.reverse with _ | ⟨x, t⟩
      · exfalso
        have hlen0 : v.length = 0 := by
          have := congrArg List.length hr
          simpa using this
        exact hv (List.length_eq_zero.mp hlen0)
      · exact ⟨x, t, rfl⟩
    obtain ⟨y, zs, hyzs⟩ : ∃ y zs, t = y :: zs := by
      rcases t with _ | ⟨y, zs⟩
      · have := congrArg List.length hxt
        simp at this
        omega
      · exact ⟨y, zs, rfl⟩
    subst hyzs
    have hrev4 : (c0 :: c1 :: c2 :: c3 :: v).reverse = (x :: y :: zs) ++ [c3, c2, c1, c0] := by
      simp [List.reverse_cons, hxt]
    simp only [specWellFormedCore, stripPadding, List.length_cons, hm, hlen, if_pos, hrev4,
      dropEq2_append, hxt, List.reverse_append, List.length_append, List.length_reverse]
    simp [List.all_append, List.all_cons, Nat.add_mod_right, Bool.and_assoc, Bool.and_comm,
      Bool.and_left_comm]
  · simp only [specWellFormedCore, stripPadding, List.length_cons, hm, if_neg hlen]
    simp [List.all_cons, Bool.and_assoc, Bool.and_comm, Bool.and_left_comm]

theorem isSome_decodeChunks (t : List Char) :
    (decodeChunks t).isSome = specWellFormedCore t := by
  induction t using chunk4_induction with
  | h0 => rfl
  | h1 c0 => simp [decodeChunks, specWellFormedCore, stripPadding]
  | h2 c0 c1 => simp [decodeChunks, isSome_decode2, specWellFormedCore, stripPadding]
  | h3 c0 c1 c2 =>
      simp [decodeChunks, isSome_decode3, specWellFormedCore, stripPadding, Bool.and_assoc]
  | h4 c0 c1 c2 c3 =>
      by_cases h3 : c3 = '='
      · by_cases h2 : c2 = '='
        · subst h3 h2
          simp [decodeChunks, isSome_decode2, specWellFormedCore, stripPadding, dropEq1]
        · subst h3
          simp [decodeChunks, isSome_decode3, specWellFormedCore, stripPadding, dropEq1, h2,
            Bool.and_assoc]
      · simp [decodeChunks, isSome_decode4, specWellFormedCore, stripPadding, dropEq1, h3,
          Bool.and_assoc]
  | h5 c0 c1 c2 c3 c4 rest ih =>
      rw [specWellFormedCore_cons4 c0 c1 c2 c3 (c4 :: rest) (by simp), ← isSome_decode4, ← ih]
      cases hd4 : decode4 c0 c1 c2 c3 <;> cases hdc : decodeChunks (c4 :: rest) <;>
        simp [decodeChunks, hd4, hdc]

theorem isSome_base64ToArrayBuffer (s : List Char) :
    (base64ToArrayBuffer s).isSome = specWellFormed s :=
  isSome_decodeChunks (s.filter (fun c => !isAsciiWs c))

end Codec

namespace Engine

/-- WebCrypto key-usage flags, as used by encryption.ts. -/
inductive KeyUsage
  | encrypt
  | decrypt
  | wrapKey
  | unwrapKey
  | deriveBits
  | deriveKey
deriving DecidableEq

/-- Symbolic byte strings.  Concrete bytes are raw; key material and
ciphertexts are the terms that produced them (ideal-cipher model of the
WebCrypto provider): an AES-GCM ciphertext records the raw key material,
IV and plaintext it was produced from and an RSA-OAEP ciphertext records
the keypair and plaintext; the raw material of a generated AES key is
aesFresh tagged by its entropy draw, and that of a PBKDF2-derived key is
aesPbkdf2, a deterministic function of passphrase bytes, salt and
iteration count.  pkcs8 and spki are the canonical encodings of the
private and public half of the RSA keypair with the given identifier. -/
inductive SymBytes
  | raw (bytes : List Nat)
  | pkcs8 (keyId : Nat)
  | spki (keyId : Nat)
  | aesFresh (id : Nat)
  | aesPbkdf2 (passphrase : List Nat) (salt : SymBytes) (iterations : Nat)
  | aesGcmCt (material : SymBytes) (iv : SymBytes) (pt : SymBytes)
  | rsaOaepCt (keyId : Nat) (pt : SymBytes)
deriving DecidableEq

/-- Symbolic base64 text, standing for the bytes it encodes.  The pipeline
treats the codec abstractly; the concrete codec and its total round-trip
are verified separately in namespace Codec. -/
structure B64 where
  bytes : SymBytes
deriving DecidableEq

/-- Symbolic arrayBufferToBase64 used inside the engine pipeline. -/
def arrayBufferToBase64 (b : SymBytes) : B64 := ⟨b⟩

/-- Symbolic base64ToArrayBuffer used inside the engine pipeline. -/
def base64ToArrayBuffer (t : B64) : SymBytes := t.bytes

/-- Key algorithm plus material of a WebCrypto CryptoKey. -/
inductive KeyAlg
  | aesGcm (material : SymBytes)
  | rsaOaepPub (keyId : Nat)
  | rsaOaepPriv (keyId : Nat)
  | pbkdf2Material (passphrase : List Nat)
deriving DecidableEq

/-- A WebCrypto CryptoKey handle: algorithm and material, the extractable
flag, and the capability (usage) list. -/
structure CryptoKey where
  alg : KeyAlg
  extractable : Bool
  usages : List KeyUsage
deriving DecidableEq

structure CryptoKeyPair where
  publicKey : CryptoKey
  privateKey : CryptoKey
deriving DecidableEq

/-- Errors surfaced by the provider (as DOMException names), plus the
caller-level missing-record error of the dashboard.  operationError is
the AEAD tag-verification/decryption failure: the AuthenticationFailure,
IntegrityFailure and UnwrapFailure of the spec taxonomy.  dataError is
the import parse failure (InvalidKeyFormat); usageError the rejection of
a usage list invalid for a key type (DOMException SyntaxError);
invalidAccessError a usage or extractability violation. -/
inductive CryptoError
  | operationError
  | invalidAccessError
  | dataError
  | usageError
deriving DecidableEq

inductive KeyFormat
  | raw
  | pkcs8
  | spki
deriving DecidableEq

/-- SubtleCrypto.encrypt with an AES-GCM algorithm: requires an AES-GCM key
carrying the encrypt usage and produces the ideal ciphertext term. -/
def subtleEncrypt (iv : SymBytes) (key : CryptoKey) (data : SymBytes) :
    Except CryptoError SymBytes :=
  match key.alg with
  | KeyAlg.aesGcm material =>
      if KeyUsage.encrypt ∈ key.usages then
        Except.ok (SymBytes.aesGcmCt material iv data)
      else Except.error CryptoError.invalidAccessError
  | _ => Except.error CryptoError.invalidAccessError

/-- SubtleCrypto.decrypt with an AES-GCM algorithm: requires an AES-GCM key
carrying the decrypt usage; the authentication tag verifies, and the
plaintext is returned, exactly when the data is an AES-GCM ciphertext
under the same key material and the same IV; any other data rejects with
OperationError. -/
def subtleDecrypt (iv : SymBytes) (key : CryptoKey) (data : SymBytes) :
    Except CryptoError SymBytes :=
  match key.alg with
  | KeyAlg.aesGcm material =>
      if KeyUsage.decrypt ∈ key.usages then
        match data with
        | SymBytes.aesGcmCt material2 iv2 pt =>
            if material2 = material then
              if iv2 = iv then Except.ok pt
              else Except.error CryptoError.operationError
            else Except.error CryptoError.operationError
        | _ => Except.error CryptoError.operationError
      else Except.error CryptoError.invalidAccessError
  | _ => Except.error CryptoError.invalidAccessError

/-- SubtleCrypto.exportKey: rejects a non-extractable key, else produces
the canonical encoding of the key in the requested format. -/
def subtleExportKey (fmt : KeyFormat) (key : CryptoKey) : Except CryptoError SymBytes :=
  if key.extractable then
    match fmt, key.alg with
    | KeyFormat.pkcs8, KeyAlg.rsaOaepPriv keyId => Except.ok (SymBytes.pkcs8 keyId)
    | KeyFormat.spki, KeyAlg.rsaOaepPub keyId => Except.ok (SymBytes.spki keyId)
    | KeyFormat.raw, KeyAlg.aesGcm material => Except.ok material
    | _, _ => Except.error CryptoError.invalidAccessError
  else Except.error CryptoError.invalidAccessError

/-- SubtleCrypto.importKey for RSA-OAEP (pkcs8 or spki format): rejects a
usage list outside what the key type supports, rejects data that is not a
canonical encoding of the right kind, and otherwise returns a key handle
with exactly the requested extractability and usages. -/
def subtleImportRsa (fmt : KeyFormat) (data : SymBytes) (ext : Bool)
    (usages : List KeyUsage) : Except CryptoError CryptoKey :=
  match fmt with
  | KeyFormat.pkcs8 =>
      if usages.all (fun u => u = KeyUsage.decrypt || u = KeyUsage.unwrapKey) then
        match data with
        | SymBytes.pkcs8 keyId => Except.ok ⟨KeyAlg.rsaOaepPriv keyId, ext, usages⟩
        | _ => Except.error CryptoError.dataError
      else Except.error CryptoError.usageError
  | KeyFormat.spki =>
      if usages.all (fun u => u = KeyUsage.encrypt || u = KeyUsage.wrapKey) then
        match data with
        | SymBytes.spki keyId => Except.ok ⟨KeyAlg.rsaOaepPub keyId, ext, usages⟩
        | _ => Except.error CryptoError.dataError
      else Except.error CryptoError.usageError
  | KeyFormat.raw => Except.error CryptoError.usageError

/-- SubtleCrypto.importKey with raw format and the PBKDF2 algorithm:
PBKDF2 base keys must be imported non-extractable and only with derive
usages. -/
def subtleImportPbkdf2 (passBytes : List Nat) (ext : Bool) (usages : List KeyUsage) :
    Except CryptoError CryptoKey :=
  if usages.all (fun u => u = KeyUsage.deriveBits || u = KeyUsage.deriveKey) then
    if ext then Except.error CryptoError.usageError
    else Except.ok ⟨KeyAlg.pbkdf2Material passBytes, false, usages⟩
  else Except.error CryptoError.usageError

/-- SubtleCrypto.deriveKey from a PBKDF2 base key to an AES-GCM-256 key:
requires the deriveKey usage on the base key; the derived material is a
deterministic function of the passphrase bytes, salt and iteration count,
and the derived handle carries exactly the requested extractability and
usages. -/
def subtleDeriveKey (salt : SymBytes) (iterations : Nat) (baseKey : CryptoKey)
    (ext : Bool) (usages : List KeyUsage) : Except CryptoError CryptoKey :=
  match baseKey.alg with
  | KeyAlg.pbkdf2Material pass =>
      if KeyUsage.deriveKey ∈ baseKey.usages then
        Except.ok ⟨KeyAlg.aesGcm (SymBytes.aesPbkdf2 pass salt iterations), ext, usages⟩
      else Except.error CryptoError.invalidAccessError
  | _ => Except.error CryptoError.invalidAccessError

/-- SubtleCrypto.generateKey for RSA-OAEP: per the WebCrypto algorithm, the
public half receives the requested usages intersected with encrypt and
wrapKey, and the private half the requested usages intersected with
decrypt and unwrapKey; id names the entropy draw of generation. -/
def subtleGenerateRsaKeyPair (id : Nat) (ext : Bool) (usages : List KeyUsage) :
    CryptoKeyPair :=
  { publicKey := ⟨KeyAlg.rsaOaepPub id, ext,
      usages.filter (fun u => u = KeyUsage.encrypt || u = KeyUsage.wrapKey)⟩,
    privateKey := ⟨KeyAlg.rsaOaepPriv id, ext,
      usages.filter (fun u => u = KeyUsage.decrypt || u = KeyUsage.unwrapKey)⟩ }

/-- SubtleCrypto.generateKey for AES-GCM-256; id names the entropy draw. -/
def subtleGenerateAesKey (id : Nat) (ext : Bool) (usages : List KeyUsage) : CryptoKey :=
  ⟨KeyAlg.aesGcm (SymBytes.aesFresh id), ext, usages⟩

/-- SubtleCrypto.wrapKey with raw format under RSA-OAEP: requires the
wrapKey usage on the wrapping key, exports the wrapped key raw (which
requires it to be extractable) and encrypts the bytes under the public
key. -/
def subtleWrapKey (key wrappingKey : CryptoKey) : Except CryptoError SymBytes :=
  if KeyUsage.wrapKey ∈ wrappingKey.usages then
    match wrappingKey.alg with
    | KeyAlg.rsaOaepPub keyId =>
        match subtleExportKey KeyFormat.raw key with
        | Except.error e => Except.error e
        | Except.ok rawKey => Except.ok (SymBytes.rsaOaepCt keyId rawKey)
    | _ => Except.error CryptoError.invalidAccessError
  else Except.error CryptoError.invalidAccessError

/-- SubtleCrypto.unwrapKey with raw format under RSA-OAEP into an
AES-GCM-256 key: requires the unwrapKey usage on the unwrapping key,
decrypts the wrapped bytes under the private key (OperationError on a
wrong key or corrupted input) and imports the result as raw AES material
with the requested extractability and usages. -/
def subtleUnwrapKey (wrapped : SymBytes) (unwrappingKey : CryptoKey)
    (ext : Bool) (usages : List KeyUsage) : Except CryptoError CryptoKey :=
  if KeyUsage.unwrapKey ∈ unwrappingKey.usages then
    match unwrappingKey.alg with
    | KeyAlg.rsaOaepPriv keyId =>
        match wrapped with
        | SymBytes.rsaOaepCt keyId2 pt =>
            if keyId2 = keyId then Except.ok ⟨KeyAlg.aesGcm pt, ext, usages⟩
            else Except.error CryptoError.operationError
        | _ => Except.error CryptoError.operationError
    | _ => Except.error CryptoError.invalidAccessError
  else Except.error CryptoError.invalidAccessError

/-- generateUserKeypair from src/src/lib/encryption.ts: RSA-OAEP-4096,
extractable, requested usages encrypt, decrypt, wrapKey, unwrapKey. -/
def generateUserKeypair (id : Nat) : CryptoKeyPair :=
  subtleGenerateRsaKeyPair id true
    [KeyUsage.encrypt, KeyUsage.decrypt, KeyUsage.wrapKey, KeyUsage.unwrapKey]

/-- exportPublicKey from encryption.ts. -/
def exportPublicKey (publicKey : CryptoKey) : Except CryptoError B64 :=
  match subtleExportKey KeyFormat.spki publicKey with
  | Except.error e => Except.error e
  | Except.ok exported => Except.ok (arrayBufferToBase64 exported)

/-- exportPrivateKey from encryption.ts. -/
def exportPrivateKey (privateKey : CryptoKey) : Except CryptoError B64 :=
  match subtleExportKey KeyFormat.pkcs8 privateKey with
  | Except.error e => Except.error e
  | Except.ok exported => Except.ok (arrayBufferToBase64 exported)

/-- importPublicKey from encryption.ts: spki import, extractable, usages
encrypt and wrapKey. -/
def importPublicKey (base64Key : B64) : Except CryptoError CryptoKey :=
  subtleImportRsa KeyFormat.spki (base64ToArrayBuffer base64Key) true
    [KeyUsage.encrypt, KeyUsage.wrapKey]

/-- importPrivateKey from encryption.ts: pkcs8 import, extractable, usages
decrypt and unwrapKey. -/
def importPrivateKey (base64Key : B64) : Except CryptoError CryptoKey :=
  subtleImportRsa KeyFormat.pkcs8 (base64ToArrayBuffer base64Key) true
    [KeyUsage.decrypt, KeyUsage.unwrapKey]

/-- deriveKeyFromPassphrase from encryption.ts: import the passphrase bytes
as a PBKDF2 base key (non-extractable, derive usages), then derive an
AES-GCM-256 key with 100000 iterations, non-extractable, usages encrypt
and decrypt. -/
def deriveKeyFromPassphrase (passphrase : List Nat) (salt : SymBytes) :
    Except CryptoError CryptoKey :=
  match subtleImportPbkdf2 passphrase false [KeyUsage.deriveBits, KeyUsage.deriveKey] with
  | Except.error e => Except.error e
  | Except.ok keyMaterial =>
      subtleDeriveKey salt 100000 keyMaterial false [KeyUsage.encrypt, KeyUsage.decrypt]

/-- The sealed private key produced by encryptPrivateKey: base64 ciphertext,
salt and IV. -/
structure SealedPrivateKey where
  encryptedKey : B64
  salt : B64
  iv : B64
deriving DecidableEq

/-- encryptPrivateKey from encryption.ts; the fresh 16-byte salt and
12-byte IV random draws are passed explicitly.  Derive a key from the
passphrase and salt, export the private key pkcs8, encrypt it under the
derived key and the IV, and return the three base64 fields. -/
def encryptPrivateKey (salt iv : List Nat) (privateKey : CryptoKey)
    (passphrase : List Nat) : Except CryptoError SealedPrivateKey :=
  match deriveKeyFromPassphrase passphrase (SymBytes.raw salt) with
  | Except.error e => Except.error e
  | Except.ok derivedKey =>
      match subtleExportKey KeyFormat.pkcs8 privateKey with
      | Except.error e => Except.error e
      | Except.ok privateKeyBuffer =>
          match subtleEncrypt (SymBytes.raw iv) derivedKey privateKeyBuffer with
          | Except.error e => Except.error e
          | Except.ok encryptedBuffer =>
              Except.ok { encryptedKey := arrayBufferToBase64 encryptedBuffer,
                          salt := arrayBufferToBase64 (SymBytes.raw salt),
                          iv := arrayBufferToBase64 (SymBytes.raw iv) }

/-- decryptPrivateKey from encryption.ts: decode the three base64 fields,
re-derive the key from the supplied passphrase and the stored salt,
decrypt, and import the plaintext as a pkcs8 private key (extractable,
usages decrypt and unwrapKey). -/
def decryptPrivateKey (encryptedKey salt iv : B64) (passphrase : List Nat) :
    Except CryptoError CryptoKey :=
  match deriveKeyFromPassphrase passphrase (base64ToArrayBuffer salt) with
  | Except.error e => Except.error e
  | Except.ok derivedKey =>
      match subtleDecrypt (base64ToArrayBuffer iv) derivedKey
          (base64ToArrayBuffer encryptedKey) with
      | Except.error e => Except.error e
      | Except.ok decryptedBuffer =>
          subtleImportRsa KeyFormat.pkcs8 decryptedBuffer true
            [KeyUsage.decrypt, KeyUsage.unwrapKey]

/-- generateFileEncryptionKey from encryption.ts: a fresh AES-GCM-256 key,
extractable, usages encrypt and decrypt. -/
def generateFileEncryptionKey (id : Nat) : CryptoKey :=
  subtleGenerateAesKey id true [KeyUsage.encrypt, KeyUsage.decrypt]

/-- encryptFile from encryption.ts; the fresh 12-byte IV random draw is
passed explicitly.  Returns the encrypted blob and the base64 IV. -/
def encryptFile (ivBytes : List Nat) (file : SymBytes) (key : CryptoKey) :
    Except CryptoError (SymBytes × B64) :=
  match subtleEncrypt (SymBytes.raw ivBytes) key file with
  | Except.error e => Except.error e
  | Except.ok encryptedBuffer =>
      Except.ok (encryptedBuffer, arrayBufferToBase64 (SymBytes.raw ivBytes))

/-- decryptFile from encryption.ts: decode the base64 IV and decrypt the
blob. -/
def decryptFile (encryptedBlob : SymBytes) (key : CryptoKey) (iv : B64) :
    Except CryptoError SymBytes :=
  subtleDecrypt (base64ToArrayBuffer iv) key encryptedBlob

/-- wrapSymmetricKey from encryption.ts. -/
def wrapSymmetricKey (symmetricKey publicKey : CryptoKey) : Except CryptoError B64 :=
  match subtleWrapKey symmetricKey publicKey with
  | Except.error e => Except.error e
  | Except.ok wrappedKey => Except.ok (arrayBufferToBase64 wrappedKey)

/-- unwrapSymmetricKey from encryption.ts: unwrap raw under the private key
into an AES-GCM-256 key, extractable, usages encrypt and decrypt. -/
def unwrapSymmetricKey (wrappedKey : B64) (privateKey : CryptoKey) :
    Except CryptoError CryptoKey :=
  subtleUnwrapKey (base64ToArrayBuffer wrappedKey) privateKey true
    [KeyUsage.encrypt, KeyUsage.decrypt]

/-- The observable steps of the dashboard download-and-decrypt flow, in the
order FileList.handleDecrypt performs them. -/
inductive Event
  | fetchKeyRecord
  | unsealPrivateKey
  | downloadCiphertext
  | unwrapFileKey
  | decryptCiphertext
deriving DecidableEq

/-- The user_keys row as parsed by handleDecrypt (the JSON fields
encryptedKey, salt and iv of encrypted_private_key). -/
structure UserKeysRow where
  encryptedKey : B64
  salt : B64
  iv : B64
deriving DecidableEq

/-- The encrypted_files row fields handleDecrypt uses. -/
structure FileRow where
  encryptedSymmetricKey : B64
  iv : B64
deriving DecidableEq

/-- The environment of one handleDecrypt run: the user_keys row (none when
missing), the ciphertext blob in object storage, and the file row. -/
structure DecryptEnv where
  keyRecord : Option UserKeysRow
  blob : SymBytes
  fileRow : FileRow

/-- Error surface of one handleDecrypt run: a provider error, or the
missing-keys error thrown before any cryptography. -/
inductive AppError
  | cryptoError (e : CryptoError)
  | keysNotFound
deriving DecidableEq

/-- leadMatch pat l: l starts with pat. -/
def leadMatch : List Char → List Char → Bool
  | [], _ => true
  | _ :: _, [] => false
  | p :: ps, x :: xs => (p = x) && leadMatch ps xs

/-- containsSeq pat l: pat occurs contiguously in l (String.includes). -/
def containsSeq (pat : List Char) : List Char → Bool
  | [] => leadMatch pat []
  | x :: xs => leadMatch pat (x :: xs) || containsSeq pat xs

/-- The DOMException name of each provider error, the text the message test
of the caller inspects. -/
def errorName : CryptoError → List Char
  | CryptoError.operationError => "OperationError".toList
  | CryptoError.invalidAccessError => "InvalidAccessError".toList
  | CryptoError.dataError => "DataError".toList
  | CryptoError.usageError => "SyntaxError".toList

/-- The catch block of FileList.handleDecrypt (KeySetup.tsx lines 460-467):
an error whose message mentions OperationError or decrypt is replaced by
the fixed message Invalid passphrase. Please try again.; every other
error is rethrown with its own message. -/
def shownMessage : AppError → List Char
  | AppError.keysNotFound => "Encryption keys not found. Please set up your keys first.".toList
  | AppError.cryptoError e =>
      if containsSeq "OperationError".toList (errorName e) ||
         containsSeq "decrypt".toList (errorName e) then
        "Invalid passphrase. Please try again.".toList
      else errorName e

/-- FileList.handleDecrypt (KeySetup.tsx lines 403-471): fetch the user_keys
row, unseal the private key with the supplied passphrase, download the
ciphertext blob, unwrap the file key, decrypt the blob.  The first
component records the events performed, in order; a failing step stops
the run. -/
def handleDecrypt (env : DecryptEnv) (passphrase : List Nat) :
    List Event × Except AppError SymBytes :=
  match env.keyRecord with
  | none => ([Event.fetchKeyRecord], Except.error AppError.keysNotFound)
  | some row =>
      match decryptPrivateKey row.encryptedKey row.salt row.iv passphrase with
      | Except.error e =>
          ([Event.fetchKeyRecord, Event.unsealPrivateKey],
           Except.error (AppError.cryptoError e))
      | Except.ok privateKey =>
          match unwrapSymmetricKey env.fileRow.encryptedSymmetricKey privateKey with
          | Except.error e =>
              ([Event.fetchKeyRecord, Event.unsealPrivateKey, Event.downloadCiphertext,
                Event.unwrapFileKey],
               Except.error (AppError.cryptoError e))
          | Except.ok symmetricKey =>
              match decryptFile env.blob symmetricKey env.fileRow.iv with
              | Except.error e =>
                  ([Event.fetchKeyRecord, Event.unsealPrivateKey, Event.downloadCiphertext,
                    Event.unwrapFileKey, Event.decryptCiphertext],
                   Except.error (AppError.cryptoError e))
              | Except.ok decryptedBlob =>
                  ([Event.fetchKeyRecord, Event.unsealPrivateKey, Event.downloadCiphertext,
                    Event.unwrapFileKey, Event.decryptCiphertext],
                   Except.ok decryptedBlob)

theorem encryptPrivateKey_spec (keyId : Nat) (us : List KeyUsage)
    (pass salt iv : List Nat) :
    encryptPrivateKey salt iv ⟨KeyAlg.rsaOaepPriv keyId, true, us⟩ pass =
      Except.ok ⟨⟨SymBytes.aesGcmCt (SymBytes.aesPbkdf2 pass (SymBytes.raw salt) 100000)
          (SymBytes.raw iv) (SymBytes.pkcs8 keyId)⟩,
        ⟨SymBytes.raw salt⟩, ⟨SymBytes.raw iv⟩⟩ := rfl

theorem decryptPrivateKey_spec (keyId : Nat) (pass salt iv : List Nat) :
    decryptPrivateKey
        ⟨SymBytes.aesGcmCt (SymBytes.aesPbkdf2 pass (SymBytes.raw salt) 100000)
          (SymBytes.raw iv) (SymBytes.pkcs8 keyId)⟩
        ⟨SymBytes.raw salt⟩ ⟨SymBytes.raw iv⟩ pass =
      Except.ok ⟨KeyAlg.rsaOaepPriv keyId, true,
        [KeyUsage.decrypt, KeyUsage.unwrapKey]⟩ := by
  simp [decryptPrivateKey, deriveKeyFromPassphrase, subtleImportPbkdf2, subtleDeriveKey,
    subtleDecrypt, subtleImportRsa, base64ToArrayBuffer]

theorem decryptPrivateKey_wrong_pass (keyId : Nat) (p1 p2 : List Nat) (hne : p1 = p2 → False)
    (salt iv : List Nat) :
    decryptPrivateKey
        ⟨SymBytes.aesGcmCt (SymBytes.aesPbkdf2 p1 (SymBytes.raw salt) 100000)
          (SymBytes.raw iv) (SymBytes.pkcs8 keyId)⟩
        ⟨SymBytes.raw salt⟩ ⟨SymBytes.raw iv⟩ p2 =
      Except.error CryptoError.operationError := by
  simp only [decryptPrivateKey, deriveKeyFromPassphrase, subtleImportPbkdf2, subtleDeriveKey,
    subtleDecrypt, base64ToArrayBuffer]
  simp [if_neg hne]

end Engine

open Engine

theorem subtleDecrypt_not_ct (material : SymBytes) (ext : Bool) (us : List KeyUsage)
    (hdec : KeyUsage.decrypt ∈ us) (iv : SymBytes) (blob2 : SymBytes)
    (hblob : ∀ pt, blob2 ≠ SymBytes.aesGcmCt material iv pt) :
    subtleDecrypt iv ⟨KeyAlg.aesGcm material, ext, us⟩ blob2 =
      Except.error CryptoError.operationError := by
  cases blob2 with
  | aesGcmCt mm ii pp =>
      by_cases hmm : mm = material
      · subst hmm
        by_cases hii : ii = iv
        · exact absurd (by rw [hii]) (hblob pp)
        · simp [subtleDecrypt, hdec, hii]
      · simp [subtleDecrypt, hdec, hmm]
  | raw bs => simp [subtleDecrypt, hdec]
  | pkcs8 keyId => simp [subtleDecrypt, hdec]
  | spki keyId => simp [subtleDecrypt, hdec]
  | aesFresh id => simp [subtleDecrypt, hdec]
  | aesPbkdf2 p s n => simp [subtleDecrypt, hdec]
  | rsaOaepCt keyId pt => simp [subtleDecrypt, hdec]

/-- C1: file cipher round-trip: for every message m, including the empty
byte sequence, and every AES-256-GCM key carrying the encrypt and decrypt
usages, decrypting the ciphertext produced by encryptFile m k with the
same key k and the IV returned by that encryptFile call yields exactly
m. -/
theorem c1_file_cipher_round_trip (material : SymBytes) (ext : Bool)
    (us : List KeyUsage) (henc : KeyUsage.encrypt ∈ us)
    (hdec : KeyUsage.decrypt ∈ us) (iv : List Nat) (m : SymBytes)
    (ct : SymBytes) (ivB64 : B64)
    (h : encryptFile iv m ⟨KeyAlg.aesGcm material, ext, us⟩ = Except.ok (ct, ivB64)) :
    decryptFile ct ⟨KeyAlg.aesGcm material, ext, us⟩ ivB64 = Except.ok m := by
  simp only [encryptFile, subtleEncrypt, if_pos henc] at h
  injection h with h2
  obtain ⟨rfl, rfl⟩ := Prod.mk.injEq .. ▸ And.intro (congrArg Prod.fst h2) (congrArg Prod.snd h2)
  simp [decryptFile, subtleDecrypt, hdec, base64ToArrayBuffer, arrayBufferToBase64]

theorem c1_file_cipher_round_trip_witness :
    decryptFile (SymBytes.aesGcmCt (SymBytes.aesFresh 0) (SymBytes.raw [1]) (SymBytes.raw []))
        ⟨KeyAlg.aesGcm (SymBytes.aesFresh 0), true, [KeyUsage.encrypt, KeyUsage.decrypt]⟩
        (arrayBufferToBase64 (SymBytes.raw [1])) = Except.ok (SymBytes.raw []) :=
  c1_file_cipher_round_trip (SymBytes.aesFresh 0) true
    [KeyUsage.encrypt, KeyUsage.decrypt] (by decide) (by decide) [1]
    (SymBytes.raw []) _ _ rfl

/-- C2: seal/unseal round-trip: for every RSA private key handle (alg
RSA-OAEP private with some keypair id, extractable, usages decrypt and
unwrapKey, as generateUserKeypair and importPrivateKey produce) and every
passphrase, decryptPrivateKey applied to the three fields produced by
encryptPrivateKey with the same passphrase yields a key equal to the
original. -/
theorem c2_seal_unseal_round_trip (keyId : Nat) (priv : CryptoKey)
    (halg : priv.alg = KeyAlg.rsaOaepPriv keyId) (hext : priv.extractable = true)
    (hus : priv.usages = [KeyUsage.decrypt, KeyUsage.unwrapKey])
    (passphrase salt iv : List Nat) (sealed : SealedPrivateKey)
    (h : encryptPrivateKey salt iv priv passphrase = Except.ok sealed) :
    decryptPrivateKey sealed.encryptedKey sealed.salt sealed.iv passphrase =
      Except.ok priv := by
  have hpriv : priv =
      ⟨KeyAlg.rsaOaepPriv keyId, true, [KeyUsage.decrypt, KeyUsage.unwrapKey]⟩ := by
    obtain ⟨a, e, u⟩ := priv
    simp_all
  subst hpriv
  rw [encryptPrivateKey_spec] at h
  injection h with h2
  subst h2
  exact decryptPrivateKey_spec keyId passphrase salt iv

theorem c2_seal_unseal_round_trip_witness :
    decryptPrivateKey
        ⟨SymBytes.aesGcmCt (SymBytes.aesPbkdf2 [7] (SymBytes.raw [2]) 100000)
          (SymBytes.raw [3]) (SymBytes.pkcs8 0)⟩
        ⟨SymBytes.raw [2]⟩ ⟨SymBytes.raw [3]⟩ [7] =
      Except.ok ⟨KeyAlg.rsaOaepPriv 0, true, [KeyUsage.decrypt, KeyUsage.unwrapKey]⟩ :=
  c2_seal_unseal_round_trip 0
    ⟨KeyAlg.rsaOaepPriv 0, true, [KeyUsage.decrypt, KeyUsage.unwrapKey]⟩
    rfl rfl rfl [7] [2] [3]
    ⟨⟨SymBytes.aesGcmCt (SymBytes.aesPbkdf2 [7] (SymBytes.raw [2]) 100000)
       (SymBytes.raw [3]) (SymBytes.pkcs8 0)⟩, ⟨SymBytes.raw [2]⟩, ⟨SymBytes.raw [3]⟩⟩
    rfl

/-- C3: wrong-passphrase unseal fails: for every extractable RSA private
key, distinct passphrases p1 and p2 and every seal of the key under p1,
decryptPrivateKey with p2 fails with the AEAD tag-verification error
(OperationError, the AuthenticationFailure of the spec taxonomy) and in
particular never returns a key. -/
theorem c3_wrong_passphrase_auth_failure (keyId : Nat) (priv : CryptoKey)
    (halg : priv.alg = KeyAlg.rsaOaepPriv keyId) (hext : priv.extractable = true)
    (p1 p2 : List Nat) (hne : p1 ≠ p2) (salt iv : List Nat) (sealed : SealedPrivateKey)
    (h : encryptPrivateKey salt iv priv p1 = Except.ok sealed) :
    decryptPrivateKey sealed.encryptedKey sealed.salt sealed.iv p2 =
      Except.error CryptoError.operationError := by
  have hpriv : priv = ⟨KeyAlg.rsaOaepPriv keyId, true, priv.usages⟩ := by
    obtain ⟨a, e, u⟩ := priv
    simp_all
  rw [hpriv, encryptPrivateKey_spec] at h
  injection h with h2
  subst h2
  exact decryptPrivateKey_wrong_pass keyId p1 p2 hne salt iv

theorem c3_wrong_passphrase_auth_failure_witness :
    decryptPrivateKey
        ⟨SymBytes.aesGcmCt (SymBytes.aesPbkdf2 [7] (SymBytes.raw [2]) 100000)
          (SymBytes.raw [3]) (SymBytes.pkcs8 0)⟩
        ⟨SymBytes.raw [2]⟩ ⟨SymBytes.raw [3]⟩ [8] =
      Except.error CryptoError.operationError :=
  c3_wrong_passphrase_auth_failure 0
    ⟨KeyAlg.rsaOaepPriv 0, true, [KeyUsage.decrypt, KeyUsage.unwrapKey]⟩
    rfl rfl [7] [8] (by decide) [2] [3]
    ⟨⟨SymBytes.aesGcmCt (SymBytes.aesPbkdf2 [7] (SymBytes.raw [2]) 100000)
       (SymBytes.raw [3]) (SymBytes.pkcs8 0)⟩, ⟨SymBytes.raw [2]⟩, ⟨SymBytes.raw [3]⟩⟩
    rfl

/-- C4: wrap/unwrap round-trip: for every AES-256-GCM file encryption key
(extractable, usages encrypt and decrypt, as generateFileEncryptionKey
produces) and every matching RSA-OAEP keypair, whose public half carries
the wrapKey usage and private half the unwrapKey usage,
unwrapSymmetricKey of wrapSymmetricKey yields a key equal to the
original. -/
theorem c4_wrap_unwrap_round_trip (keyId : Nat) (material : SymBytes)
    (pub priv : CryptoKey) (hpub : pub.alg = KeyAlg.rsaOaepPub keyId)
    (hpubUs : KeyUsage.wrapKey ∈ pub.usages)
    (hpriv : priv.alg = KeyAlg.rsaOaepPriv keyId)
    (hprivUs : KeyUsage.unwrapKey ∈ priv.usages)
    (fek : CryptoKey)
    (hfek : fek = ⟨KeyAlg.aesGcm material, true, [KeyUsage.encrypt, KeyUsage.decrypt]⟩)
    (wrapped : B64) (h : wrapSymmetricKey fek pub = Except.ok wrapped) :
    unwrapSymmetricKey wrapped priv = Except.ok fek := by
  subst hfek
  simp only [wrapSymmetricKey, subtleWrapKey, if_pos hpubUs, hpub, subtleExportKey,
    if_pos rfl] at h
  injection h with h2
  subst h2
  simp [unwrapSymmetricKey, subtleUnwrapKey, hprivUs, hpriv, base64ToArrayBuffer,
    arrayBufferToBase64]

theorem c4_wrap_unwrap_round_trip_witness :
    unwrapSymmetricKey (arrayBufferToBase64 (SymBytes.rsaOaepCt 0 (SymBytes.aesFresh 5)))
        ⟨KeyAlg.rsaOaepPriv 0, true, [KeyUsage.decrypt, KeyUsage.unwrapKey]⟩ =
      Except.ok ⟨KeyAlg.aesGcm (SymBytes.aesFresh 5), true,
        [KeyUsage.encrypt, KeyUsage.decrypt]⟩ :=
  c4_wrap_unwrap_round_trip 0 (SymBytes.aesFresh 5)
    ⟨KeyAlg.rsaOaepPub 0, true, [KeyUsage.encrypt, KeyUsage.wrapKey]⟩
    ⟨KeyAlg.rsaOaepPriv 0, true, [KeyUsage.decrypt, KeyUsage.unwrapKey]⟩
    rfl (by decide) rfl (by decide)
    ⟨KeyAlg.aesGcm (SymBytes.aesFresh 5), true, [KeyUsage.encrypt, KeyUsage.decrypt]⟩
    rfl (arrayBufferToBase64 (SymBytes.rsaOaepCt 0 (SymBytes.aesFresh 5))) rfl

/-- C5: codec round-trip: for every byte sequence, including the empty one,
base64ToArrayBuffer of arrayBufferToBase64 returns exactly the input,
preserving byte order and length. -/
theorem c5_codec_round_trip (b : List Nat) (hb : ∀ x ∈ b, x < 256) :
    Codec.base64ToArrayBuffer (Codec.arrayBufferToBase64 b) = some b := by
  unfold Codec.base64ToArrayBuffer Codec.arrayBufferToBase64
  rw [Codec.filter_ws_encodeChunks b hb]
  exact Codec.decodeChunks_encodeChunks b hb

theorem c5_codec_round_trip_witness :
    Codec.base64ToArrayBuffer (Codec.arrayBufferToBase64 [0, 255, 77]) = some [0, 255, 77] :=
  c5_codec_round_trip [0, 255, 77] (by decide)

/-- C6 counterexample: the space character lies outside the base64 alphabet
and is not the padding character, yet base64ToArrayBuffer succeeds on
inputs containing it, because atob strips ASCII whitespace before
decoding; so the claim that decode fails on every input containing a
character outside the alphabet is false on the code. -/
theorem c6_counterexample :
    Codec.charSextet ' ' = none ∧ ¬(' ' = '=') ∧ Codec.isAsciiWs ' ' = true ∧
    Codec.base64ToArrayBuffer [' '] = some [] ∧
    Codec.base64ToArrayBuffer "aGVs bG8=".toList = some [104, 101, 108, 108, 111] := by
  decide

/-- C6 (amended): base64ToArrayBuffer first strips ASCII whitespace, so
whitespace characters outside the alphabet are tolerated rather than
rejected; it fails with MalformedEncoding exactly on the inputs that are
malformed in the forgiving-base64 sense: after whitespace removal, and
after stripping up to two trailing padding characters when the length is
a multiple of four, some character lies outside the alphabet (this
covers misplaced padding) or the length is 1 mod 4 (invalid
padding/length). -/
theorem c6_decode_malformed_iff (s : List Char) :
    Codec.base64ToArrayBuffer s = none ↔ Codec.specWellFormed s = false := by
  rw [← Codec.isSome_base64ToArrayBuffer s]
  cases hx : Codec.base64ToArrayBuffer s <;> simp

/-- C7: error indistinguishability: a decryptFile failure caused by a wrong
key and one caused by a ciphertext that is not a valid encryption under
the key and IV (corruption, e.g. a flipped byte, or tampering) surface as
the very same error value (OperationError, the IntegrityFailure of the
spec taxonomy); consequently the caller's message translation
(shownMessage, the catch block of handleDecrypt) displays the same
message for both causes, distinguishing neither. -/
theorem c7_decrypt_failure_indistinguishable (material material2 : SymBytes)
    (hne : material2 ≠ material) (ext ext2 : Bool) (us us2 : List KeyUsage)
    (hdec : KeyUsage.decrypt ∈ us) (hdec2 : KeyUsage.decrypt ∈ us2)
    (iv : List Nat) (m : SymBytes) (blob2 : SymBytes)
    (hblob : ∀ pt, blob2 ≠ SymBytes.aesGcmCt material (SymBytes.raw iv) pt) :
    decryptFile (SymBytes.aesGcmCt material (SymBytes.raw iv) m)
        ⟨KeyAlg.aesGcm material2, ext2, us2⟩ ⟨SymBytes.raw iv⟩ =
      Except.error CryptoError.operationError ∧
    decryptFile blob2 ⟨KeyAlg.aesGcm material, ext, us⟩ ⟨SymBytes.raw iv⟩ =
      Except.error CryptoError.operationError ∧
    (∀ e1 e2,
      decryptFile (SymBytes.aesGcmCt material (SymBytes.raw iv) m)
          ⟨KeyAlg.aesGcm material2, ext2, us2⟩ ⟨SymBytes.raw iv⟩ = Except.error e1 →
      decryptFile blob2 ⟨KeyAlg.aesGcm material, ext, us⟩ ⟨SymBytes.raw iv⟩ =
          Except.error e2 →
      shownMessage (AppError.cryptoError e1) = shownMessage (AppError.cryptoError e2)) := by
  have h1 : decryptFile (SymBytes.aesGcmCt material (SymBytes.raw iv) m)
      ⟨KeyAlg.aesGcm material2, ext2, us2⟩ ⟨SymBytes.raw iv⟩ =
      Except.error CryptoError.operationError := by
    simp [decryptFile, subtleDecrypt, hdec2, base64ToArrayBuffer, hne.symm]
  have h2 : decryptFile blob2 ⟨KeyAlg.aesGcm material, ext, us⟩ ⟨SymBytes.raw iv⟩ =
      Except.error CryptoError.operationError := by
    unfold decryptFile
    exact subtleDecrypt_not_ct material ext us hdec (SymBytes.raw iv) blob2 hblob
  refine ⟨h1, h2, ?_⟩
  intro e1 e2 he1 he2
  rw [h1] at he1
  rw [h2] at he2
  injection he1 with he1b
  injection he2 with he2b
  rw [← he1b, ← he2b]

theorem c7_decrypt_failure_indistinguishable_witness :
    (decryptFile (SymBytes.aesGcmCt (SymBytes.aesFresh 0) (SymBytes.raw [1]) (SymBytes.raw []))
        ⟨KeyAlg.aesGcm (SymBytes.aesFresh 1), true, [KeyUsage.encrypt, KeyUsage.decrypt]⟩
        ⟨SymBytes.raw [1]⟩ = Except.error CryptoError.operationError) ∧
    (decryptFile (SymBytes.raw [9])
        ⟨KeyAlg.aesGcm (SymBytes.aesFresh 0), true, [KeyUsage.encrypt, KeyUsage.decrypt]⟩
        ⟨SymBytes.raw [1]⟩ = Except.error CryptoError.operationError) ∧
    (∀ e1 e2,
      decryptFile (SymBytes.aesGcmCt (SymBytes.aesFresh 0) (SymBytes.raw [1]) (SymBytes.raw []))
          ⟨KeyAlg.aesGcm (SymBytes.aesFresh 1), true, [KeyUsage.encrypt, KeyUsage.decrypt]⟩
          ⟨SymBytes.raw [1]⟩ = Except.error e1 →
      decryptFile (SymBytes.raw [9])
          ⟨KeyAlg.aesGcm (SymBytes.aesFresh 0), true, [KeyUsage.encrypt, KeyUsage.decrypt]⟩
          ⟨SymBytes.raw [1]⟩ = Except.error e2 →
      shownMessage (AppError.cryptoError e1) = shownMessage (AppError.cryptoError e2)) :=
  c7_decrypt_failure_indistinguishable (SymBytes.aesFresh 0) (SymBytes.aesFresh 1)
    (by decide) true true [KeyUsage.encrypt, KeyUsage.decrypt]
    [KeyUsage.encrypt, KeyUsage.decrypt] (by decide) (by decide) [1] (SymBytes.raw [])
    (SymBytes.raw [9]) (fun pt h => SymBytes.noConfusion h)

/-- C8: failure ordering in the download pipeline: with a stored seal of
the private key under passphrase p1, running handleDecrypt with a
different passphrase p2 performs exactly the key-record fetch and the
failing unseal — the run stops with the AEAD tag-verification error
(OperationError, the AuthenticationFailure of the spec taxonomy) before
the ciphertext blob is downloaded and before any unwrap or file decrypt;
moreover, in every execution of handleDecrypt that touches the
ciphertext blob, the download is the third event, strictly after the
private-key unseal. -/
theorem c8_unseal_precedes_ciphertext_access (keyId : Nat) (priv : CryptoKey)
    (halg : priv.alg = KeyAlg.rsaOaepPriv keyId) (hext : priv.extractable = true)
    (p1 p2 : List Nat) (hne : p1 ≠ p2) (salt iv : List Nat) (sealed : SealedPrivateKey)
    (hseal : encryptPrivateKey salt iv priv p1 = Except.ok sealed)
    (blob : SymBytes) (fileRow : FileRow) :
    handleDecrypt ⟨some ⟨sealed.encryptedKey, sealed.salt, sealed.iv⟩, blob, fileRow⟩ p2 =
      ([Event.fetchKeyRecord, Event.unsealPrivateKey],
       Except.error (AppError.cryptoError CryptoError.operationError)) ∧
    (∀ env pass, Event.downloadCiphertext ∈ (handleDecrypt env pass).1 →
      (handleDecrypt env pass).1.take 3 =
        [Event.fetchKeyRecord, Event.unsealPrivateKey, Event.downloadCiphertext]) := by
  constructor
  · have hpriv : priv = ⟨KeyAlg.rsaOaepPriv keyId, true, priv.usages⟩ := by
      obtain ⟨a, e, u⟩ := priv
      simp_all
    rw [hpriv, encryptPrivateKey_spec] at hseal
    injection hseal with h2
    subst h2
    simp [handleDecrypt, decryptPrivateKey_wrong_pass keyId p1 p2 hne salt iv]
  · intro env pass hmem
    obtain ⟨kr, blob2, fr⟩ := env
    cases kr with
    | none => simp [handleDecrypt] at hmem
    | some row =>
        cases hdk : decryptPrivateKey row.encryptedKey row.salt row.iv pass with
        | error e => simp [handleDecrypt, hdk] at hmem
        | ok privateKey =>
            cases huw : unwrapSymmetricKey fr.encryptedSymmetricKey privateKey with
            | error e => simp [handleDecrypt, hdk, huw]
            | ok symmetricKey =>
                cases hdf : decryptFile blob2 symmetricKey fr.iv with
                | error e => simp [handleDecrypt, hdk, huw, hdf]
                | ok b => simp [handleDecrypt, hdk, huw, hdf]

theorem c8_unseal_precedes_ciphertext_access_witness :
    (handleDecrypt
        ⟨some ⟨⟨SymBytes.aesGcmCt (SymBytes.aesPbkdf2 [7] (SymBytes.raw [2]) 100000)
            (SymBytes.raw [3]) (SymBytes.pkcs8 0)⟩,
          ⟨SymBytes.raw [2]⟩, ⟨SymBytes.raw [3]⟩⟩,
         SymBytes.raw [], ⟨⟨SymBytes.raw [4]⟩, ⟨SymBytes.raw [5]⟩⟩⟩ [8] =
      ([Event.fetchKeyRecord, Event.unsealPrivateKey],
       Except.error (AppError.cryptoError CryptoError.operationError))) ∧
    (∀ env pass, Event.downloadCiphertext ∈ (handleDecrypt env pass).1 →
      (handleDecrypt env pass).1.take 3 =
        [Event.fetchKeyRecord, Event.unsealPrivateKey, Event.downloadCiphertext]) :=
  c8_unseal_precedes_ciphertext_access 0
    ⟨KeyAlg.rsaOaepPriv 0, true, [KeyUsage.decrypt, KeyUsage.unwrapKey]⟩
    rfl rfl [7] [8] (by decide) [2] [3]
    ⟨⟨SymBytes.aesGcmCt (SymBytes.aesPbkdf2 [7] (SymBytes.raw [2]) 100000)
        (SymBytes.raw [3]) (SymBytes.pkcs8 0)⟩, ⟨SymBytes.raw [2]⟩, ⟨SymBytes.raw [3]⟩⟩
    rfl (SymBytes.raw []) ⟨⟨SymBytes.raw [4]⟩, ⟨SymBytes.raw [5]⟩⟩

theorem subtleImportRsa_usages (fmt : KeyFormat) (data : SymBytes) (ext : Bool)
    (us : List KeyUsage) (k : CryptoKey)
    (h : subtleImportRsa fmt data ext us = Except.ok k) : k.usages = us := by
  cases fmt with
  | raw => simp [subtleImportRsa] at h
  | pkcs8 =>
      simp only [subtleImportRsa] at h
      split at h
      · cases data <;> simp at h
        rw [← h]
      · simp at h
  | spki =>
      simp only [subtleImportRsa] at h
      split at h
      · cases data <;> simp at h
        rw [← h]
      · simp at h

/-- C9: capability scoping: the public key of generateUserKeypair carries
exactly the usages encrypt and wrapKey and its private key exactly
decrypt and unwrapKey (the WebCrypto usage intersection), every key
importPublicKey returns carries exactly encrypt and wrapKey, and every
key importPrivateKey or decryptPrivateKey returns carries exactly
decrypt and unwrapKey: no operation hands back a key usable outside its
role. -/
theorem c9_key_capability_scoping :
    (∀ id, (generateUserKeypair id).publicKey.usages =
        [KeyUsage.encrypt, KeyUsage.wrapKey] ∧
      (generateUserKeypair id).privateKey.usages =
        [KeyUsage.decrypt, KeyUsage.unwrapKey]) ∧
    (∀ t k, importPublicKey t = Except.ok k →
      k.usages = [KeyUsage.encrypt, KeyUsage.wrapKey]) ∧
    (∀ t k, importPrivateKey t = Except.ok k →
      k.usages = [KeyUsage.decrypt, KeyUsage.unwrapKey]) ∧
    (∀ ek s i p k, decryptPrivateKey ek s i p = Except.ok k →
      k.usages = [KeyUsage.decrypt, KeyUsage.unwrapKey]) := by
  refine ⟨fun id => ⟨rfl, rfl⟩, ?_, ?_, ?_⟩
  · intro t k h
    exact subtleImportRsa_usages _ _ _ _ _ h
  · intro t k h
    exact subtleImportRsa_usages _ _ _ _ _ h
  · intro ek s i p k h
    unfold decryptPrivateKey at h
    split at h
    · simp at h
    · split at h
      · simp at h
      · exact subtleImportRsa_usages _ _ _ _ _ h

theorem c9_key_capability_scoping_witness :
    ((generateUserKeypair 0).publicKey.usages = [KeyUsage.encrypt, KeyUsage.wrapKey]) ∧
    ((⟨KeyAlg.rsaOaepPub 3, true, [KeyUsage.encrypt, KeyUsage.wrapKey]⟩ : CryptoKey).usages =
      [KeyUsage.encrypt, KeyUsage.wrapKey]) ∧
    ((⟨KeyAlg.rsaOaepPriv 4, true, [KeyUsage.decrypt, KeyUsage.unwrapKey]⟩ : CryptoKey).usages =
      [KeyUsage.decrypt, KeyUsage.unwrapKey]) ∧
    ((⟨KeyAlg.rsaOaepPriv 0, true, [KeyUsage.decrypt, KeyUsage.unwrapKey]⟩ : CryptoKey).usages =
      [KeyUsage.decrypt, KeyUsage.unwrapKey]) :=
  ⟨(c9_key_capability_scoping.1 0).1,
   c9_key_capability_scoping.2.1 ⟨SymBytes.spki 3⟩ _ rfl,
   c9_key_capability_scoping.2.2.1 ⟨SymBytes.pkcs8 4⟩ _ rfl,
   c9_key_capability_scoping.2.2.2
     ⟨SymBytes.aesGcmCt (SymBytes.aesPbkdf2 [7] (SymBytes.raw [2]) 100000)
       (SymBytes.raw [3]) (SymBytes.pkcs8 0)⟩
     ⟨SymBytes.raw [2]⟩ ⟨SymBytes.raw [3]⟩ [7] _
     (decryptPrivateKey_spec 0 [7] [2] [3])⟩

/-- C10: for every passphrase and salt, the key deriveKeyFromPassphrase
returns is created non-extractable with exactly the usages encrypt and
decrypt, every export of it fails, and every attempt to wrap it (which
would export its raw bytes) fails: the raw bytes of the
passphrase-derived key can never be exported by any subsequent
operation, on every seal and unseal call. -/
theorem c10_derived_key_non_extractable (passphrase : List Nat) (salt : SymBytes)
    (k : CryptoKey) (h : deriveKeyFromPassphrase passphrase salt = Except.ok k) :
    k.extractable = false ∧ k.usages = [KeyUsage.encrypt, KeyUsage.decrypt] ∧
    (∀ fmt, subtleExportKey fmt k = Except.error CryptoError.invalidAccessError) ∧
    (∀ wrappingKey, subtleWrapKey k wrappingKey =
      Except.error CryptoError.invalidAccessError) := by
  have hk : k = ⟨KeyAlg.aesGcm (SymBytes.aesPbkdf2 passphrase salt 100000), false,
      [KeyUsage.encrypt, KeyUsage.decrypt]⟩ := by
    simp only [deriveKeyFromPassphrase, subtleImportPbkdf2, subtleDeriveKey] at h
    simp at h
    exact h.symm
  subst hk
  refine ⟨rfl, rfl, ?_, ?_⟩
  · intro fmt
    cases fmt <;> rfl
  · intro wk
    by_cases hw : KeyUsage.wrapKey ∈ wk.usages
    · cases halg : wk.alg with
      | aesGcm material => simp [subtleWrapKey, hw, halg]
      | rsaOaepPub keyId => simp [subtleWrapKey, hw, halg, subtleExportKey]
      | rsaOaepPriv keyId => simp [subtleWrapKey, hw, halg]
      | pbkdf2Material pass => simp [subtleWrapKey, hw, halg]
    · simp [subtleWrapKey, hw]

theorem c10_derived_key_non_extractable_witness :
    ((⟨KeyAlg.aesGcm (SymBytes.aesPbkdf2 [1] (SymBytes.raw [2]) 100000), false,
        [KeyUsage.encrypt, KeyUsage.decrypt]⟩ : CryptoKey).extractable = false) ∧
    ((⟨KeyAlg.aesGcm (SymBytes.aesPbkdf2 [1] (SymBytes.raw [2]) 100000), false,
        [KeyUsage.encrypt, KeyUsage.decrypt]⟩ : CryptoKey).usages =
      [KeyUsage.encrypt, KeyUsage.decrypt]) ∧
    (∀ fmt, subtleExportKey fmt
        ⟨KeyAlg.aesGcm (SymBytes.aesPbkdf2 [1] (SymBytes.raw [2]) 100000), false,
          [KeyUsage.encrypt, KeyUsage.decrypt]⟩ =
      Except.error CryptoError.invalidAccessError) ∧
    (∀ wrappingKey, subtleWrapKey
        ⟨KeyAlg.aesGcm (SymBytes.aesPbkdf2 [1] (SymBytes.raw [2]) 100000), false,
          [KeyUsage.encrypt, KeyUsage.decrypt]⟩ wrappingKey =
      Except.error CryptoError.invalidAccessError) :=
  c10_derived_key_non_extractable [1] (SymBytes.raw [2])
    ⟨KeyAlg.aesGcm (SymBytes.aesPbkdf2 [1] (SymBytes.raw [2]) 100000), false,
      [KeyUsage.encrypt, KeyUsage.decrypt]⟩ rfl
